import Mathlib

/-!
Verification of the two extractable components of the repository
(`src/main.cpp`):

* `tuple_template` — a heterogeneous fixed-size tuple represented as a
  chain of cells whose tail is itself a tuple, with compile-time indexed
  access (`tuple`, `nth_type`, `getter`, `get`, `size`).
* `good_tag_dispatch` — a tag-dispatched `advance` over cursors, with an
  O(n) step loop for step-only cursors (`supports_plus = std::false_type`)
  and an O(1) displacement for offsettable ones (`std::true_type`).

Machine integers are modelled by `Int`/`Nat`; compile-time template errors
(failed lookups / static_assert) are modelled by `Option`/unrepresentable
indices.
-/

namespace tuple_template

/-- A (type, value) dependent pair: one constructor argument of the tuple. -/
abbrev Val : Type 1 := Σ T : Type, T

/-- Embedding of `tuple_template::tuple` (`src/main.cpp:237-269`):
a chain of single-element cells indexed by the list of element types.
The primary template stores `value : T` and `rest : tuple<Ts...>`; the
partial specialization `tuple<T>` stores only `value`.  There is no
constructor for an empty type list, mirroring that `tuple<>` cannot be
instantiated. -/
inductive tuple : List Type → Type 1 where
  | single {T : Type} (value : T) : tuple [T]
  | cons {T : Type} {Ts : List Type} (value : T) (rest : tuple Ts) :
      tuple (T :: Ts)

/-- Embedding of the constructor call `tuple(t, ts...)`: builds the chain
from a first value and the remaining values, in argument order. -/
def construct : (v : Val) → (vs : List Val) → tuple ((v :: vs).map Sigma.fst)
  | v, [] => tuple.single v.2
  | v, w :: ws => tuple.cons v.2 (construct w ws)

/-- Embedding of `tuple::size` (`src/main.cpp:244-248` and `262-266`):
`1` for the one-element specialization, `1 + rest.size()` otherwise. -/
def size : {Ts : List Type} → tuple Ts → Nat
  | _, tuple.single _ => 1
  | _, tuple.cons _ rest => 1 + size rest

/-- Embedding of `tuple_template::nth_type` / `nth_type_t`
(`src/main.cpp:272-286`): recursive lookup of the `N`-th type.  `none`
models a build-time failure (the `static_assert(N < sizeof...(Ts) + 1)`
firing, or no matching specialization once the pack is exhausted). -/
def nth_type_t : Nat → List Type → Option Type
  | _, [] => none
  | 0, T :: _ => some T
  | n + 1, _ :: Ts => nth_type_t n Ts

/-- Embedding of `tuple_template::getter` (`src/main.cpp:289-310`):
`getter<0>::get` returns `t.value`; `getter<N>::get` recurses into
`getter<N-1>::get(t.rest)`.  The in-bounds proof models the fact that an
out-of-range instantiation does not compile. -/
def getter : (N : Nat) → {Ts : List Type} → tuple Ts → (h : N < Ts.length) →
    Ts.get ⟨N, h⟩
  | 0, _, tuple.single v, _ => v
  | 0, _, tuple.cons v _, _ => v
  | n + 1, _, tuple.cons _ rest, h => getter n rest (Nat.lt_of_succ_lt_succ h)
  | n + 1, _, tuple.single _, h => absurd h (by simp)

/-- Embedding of `tuple_template::get` (`src/main.cpp:313-318`):
delegates to `getter<N>::get`. -/
def get (N : Nat) {Ts : List Type} (t : tuple Ts) (h : N < Ts.length) :
    Ts.get ⟨N, h⟩ :=
  getter N t h

/-- Writing a value through the reference returned by `getter<N>::get`:
the reference denotes the slot reached by the same recursion as `getter`,
so assignment replaces exactly that slot (explicit-state model of the
mutation `get<N>(t) = x`). -/
def set : (N : Nat) → {Ts : List Type} → (t : tuple Ts) →
    (h : N < Ts.length) → Ts.get ⟨N, h⟩ → tuple Ts
  | 0, _, tuple.single _, _, x => tuple.single x
  | 0, _, tuple.cons _ rest, _, x => tuple.cons x rest
  | n + 1, _, tuple.cons v rest, h, x =>
      tuple.cons v (set n rest (Nat.lt_of_succ_lt_succ h) x)
  | n + 1, _, tuple.single _, h, _ => absurd h (by simp)

end tuple_template

namespace good_tag_dispatch

/-- Embedding of the loop body of
`advance_impl(Iter begin, int n, std::false_type)` (`src/main.cpp:142-151`):
apply the single-step increment a given number of times. -/
def step_loop {Iter : Type} (inc : Iter → Iter) : Nat → Iter → Iter
  | 0, b => b
  | k + 1, b => step_loop inc k (inc b)

/-- Version of `step_loop` instrumented with a counter of increment applications,
used to state how many times `++` is applied by the step-loop strategy. -/
def step_loop_counted {Iter : Type} (inc : Iter → Iter) :
    Nat → Iter → Nat → Iter × Nat
  | 0, b, k => (b, k)
  | m + 1, b, k => step_loop_counted inc m (inc b) (k + 1)

/-- Embedding of `advance_impl(Iter begin, int n, std::false_type)`
(`src/main.cpp:142-151`): `for (int i = 0; i < n; i++) ++begin;` — the
guard `i < n` runs the body `n.toNat` times (zero times when `n < 0`). -/
def advance_impl_ff {Iter : Type} (inc : Iter → Iter) (b : Iter) (n : Int) :
    Iter :=
  step_loop inc n.toNat b

/-- Embedding of `advance_impl(Iter begin, int n, std::true_type)`
(`src/main.cpp:153-158`): `return begin + n;` — a single displacement. -/
def advance_impl_tt {Iter : Type} (plus : Iter → Int → Iter) (b : Iter)
    (n : Int) : Iter :=
  plus b n

/-- Modelled from the spec: `good_tag_dispatch::tree_iterator`
(`src/main.cpp:111-116`) declares `operator++` but gives it no body in the
source; the scenario in the spec treats a steppable-only cursor as a position
index into a sequence, with `++` moving to the next position. -/
structure tree_iterator where
  pos : Nat
deriving DecidableEq

/-- Model of `operator++` of the steppable-only cursor: move one position forward. -/
def tree_iterator.inc (c : tree_iterator) : tree_iterator :=
  ⟨c.pos + 1⟩

/-- The tag `tree_iterator::supports_plus` is `std::false_type`
(`src/main.cpp:115`). -/
def tree_iterator.supports_plus : Bool := false

/-- Modelled from the spec: `good_tag_dispatch::vector_iterator`
(`src/main.cpp:126-132`) declares `operator++` and `operator+` but gives
them no bodies in the source; the spec treats an offsettable cursor as a
position with `++` a single step forward and `+ n` a direct n-step
displacement (so negative `n` moves it backward). -/
structure vector_iterator where
  pos : Int
deriving DecidableEq

/-- Model of `operator++` of the offsettable cursor: move one position forward. -/
def vector_iterator.inc (c : vector_iterator) : vector_iterator :=
  ⟨c.pos + 1⟩

/-- Model of `operator+` of the offsettable cursor: direct displacement by `n`. -/
def vector_iterator.plus (c : vector_iterator) (n : Int) : vector_iterator :=
  ⟨c.pos + n⟩

/-- The tag `vector_iterator::supports_plus` is `std::true_type`
(`src/main.cpp:131`). -/
def vector_iterator.supports_plus : Bool := true

/-- Embedding of `good_tag_dispatch::advance` (`src/main.cpp:160-165`)
instantiated at `tree_iterator`: `Iter::supports_plus()` is
`std::false_type`, so overload resolution selects the step-loop
`advance_impl`. -/
def tree_iterator.advance (b : tree_iterator) (n : Int) : tree_iterator :=
  advance_impl_ff tree_iterator.inc b n

/-- Embedding of `good_tag_dispatch::advance` (`src/main.cpp:160-165`)
instantiated at `vector_iterator`: `Iter::supports_plus()` is
`std::true_type`, so overload resolution selects the displacement
`advance_impl`. -/
def vector_iterator.advance (b : vector_iterator) (n : Int) : vector_iterator :=
  advance_impl_tt vector_iterator.plus b n

end good_tag_dispatch

namespace tuple_template

/-- C5: for every arity `N ≥ 1` and all values `v0, ..., vN-1`, `size()` of
the tuple built by `construct(v0, ..., vN-1)` returns exactly `N`. -/
theorem size_construct : ∀ (vs : List Val) (v : Val),
    size (construct v vs) = (v :: vs).length
  | [], _ => rfl
  | w :: ws, v => by
      have ih := size_construct ws w
      simp [construct, size] at ih ⊢
      omega

/-- C9: a zero-length tuple value is unrepresentable — `tuple<>` has no
instantiation, and `construct` requires a first argument, so arity is at
least one. -/
theorem tuple_zero_length_unrepresentable : IsEmpty (tuple ([] : List Type)) :=
  ⟨fun t => nomatch t⟩

/-- C3: the `nth_type` lookup behind `get<i>` succeeds exactly when the
index is in range `0 ≤ i < N`; any out-of-range index makes the lookup
fail (`none`, the build-time error), never a clamped wrong result. -/
theorem nth_type_some_iff_in_range (N : Nat) (Ts : List Type) :
    (nth_type_t N Ts).isSome = true ↔ N < Ts.length := by
  induction Ts generalizing N with
  | nil => cases N <;> simp [nth_type_t]
  | cons T Ts ih =>
      cases N with
      | zero => simp [nth_type_t]
      | succ n => simpa [nth_type_t, Nat.succ_lt_succ_iff] using ih n

end tuple_template

namespace good_tag_dispatch

/-- The step loop on the offsettable cursor moves the position forward by
the number of iterations. -/
theorem step_loop_vec_pos : ∀ (k : Nat) (c : vector_iterator),
    step_loop vector_iterator.inc k c = ⟨c.pos + (k : Int)⟩
  | 0, c => by simp [step_loop]
  | k + 1, c => by
      have ih := step_loop_vec_pos k ⟨c.pos + 1⟩
      simp only [step_loop, vector_iterator.inc] at ih ⊢
      rw [ih]
      congr 1
      push_cast
      ring

/-- The counted step loop computes the same cursor as `step_loop` and adds
the number of iterations to the counter. -/
theorem step_loop_counted_spec {Iter : Type} (inc : Iter → Iter) :
    ∀ (m : Nat) (b : Iter) (k : Nat),
    step_loop_counted inc m b k = (step_loop inc m b, k + m)
  | 0, b, k => by simp [step_loop_counted, step_loop]
  | m + 1, b, k => by
      have ih := step_loop_counted_spec inc m (inc b) (k + 1)
      simp only [step_loop_counted, step_loop] at ih ⊢
      rw [ih]
      congr 1
      omega

/-- C2: for every offsettable cursor `c` and every non-negative step count
`n`, `advance(c, n)` (the O(1) displacement strategy) lands on the same
final position as applying the single-step increment `n` times (the O(n)
step-loop strategy). -/
theorem advance_offset_eq_step_loop (c : vector_iterator) (n : Int)
    (h : 0 ≤ n) :
    vector_iterator.advance c n = step_loop vector_iterator.inc n.toNat c := by
  rw [step_loop_vec_pos, Int.toNat_of_nonneg h]
  rfl

/-- Witness for C2 at `c = ⟨0⟩`, `n = 3`. -/
theorem advance_offset_eq_step_loop_witness :
    (0 : Int) ≤ 3 ∧
      vector_iterator.advance ⟨0⟩ 3
        = step_loop vector_iterator.inc (Int.toNat 3) ⟨0⟩ :=
  ⟨by decide, advance_offset_eq_step_loop ⟨0⟩ 3 (by decide)⟩

/-- C7: `advance(c, 0)` returns the cursor unchanged for both capability
variants: the step loop runs zero iterations on the steppable-only cursor
and the displacement adds zero on the offsettable cursor. -/
theorem advance_zero_id (t : tree_iterator) (v : vector_iterator) :
    tree_iterator.advance t 0 = t ∧ vector_iterator.advance v 0 = v := by
  constructor
  · rfl
  · cases v
    simp [vector_iterator.advance, advance_impl_tt, vector_iterator.plus]

/-- C4: for every negative step count `n`, the step-loop strategy performs
zero increment applications and returns the input cursor unchanged, while
the offset strategy displaces the cursor by `n`, landing on a different
position — the two strategies disagree on negative inputs. -/
theorem advance_negative_divergence (t : tree_iterator) (v : vector_iterator)
    (n : Int) (h : n < 0) :
    tree_iterator.advance t n = t
    ∧ (step_loop_counted tree_iterator.inc n.toNat t 0).2 = 0
    ∧ vector_iterator.advance v n = ⟨v.pos + n⟩
    ∧ vector_iterator.advance v n ≠ v := by
  have h0 : n.toNat = 0 := Int.toNat_of_nonpos h.le
  refine ⟨?_, ?_, rfl, ?_⟩
  · simp [tree_iterator.advance, advance_impl_ff, h0, step_loop]
  · simp [h0, step_loop_counted]
  · cases v with
    | mk p =>
      simp [vector_iterator.advance, advance_impl_tt, vector_iterator.plus]
      omega

/-- Witness for C4 at `t = ⟨0⟩`, `v = ⟨0⟩`, `n = -1`. -/
theorem advance_negative_divergence_witness :
    (-1 : Int) < 0 ∧
      (tree_iterator.advance ⟨0⟩ (-1) = ⟨0⟩
      ∧ (step_loop_counted tree_iterator.inc (Int.toNat (-1)) ⟨0⟩ 0).2 = 0
      ∧ vector_iterator.advance ⟨0⟩ (-1) = ⟨(0 : Int) + (-1)⟩
      ∧ vector_iterator.advance ⟨0⟩ (-1) ≠ ⟨0⟩) :=
  ⟨by decide, advance_negative_divergence ⟨0⟩ ⟨0⟩ (-1) (by decide)⟩

/-- C8: on the sequence `[1,2,3,4,5]` with a steppable-only cursor at
position 0, `advance(cursor, 3)` lands on position 3, whose element is
`4`, and the counted step loop reaches the same cursor using exactly 3
increment applications. -/
theorem advance_steppable_scenario :
    (tree_iterator.advance ⟨0⟩ 3).pos = 3
    ∧ ([1, 2, 3, 4, 5] : List Nat).get? (tree_iterator.advance ⟨0⟩ 3).pos
        = some 4
    ∧ step_loop_counted tree_iterator.inc (Int.toNat 3) ⟨0⟩ 0
        = (tree_iterator.advance ⟨0⟩ 3, 3) :=
  ⟨rfl, rfl, rfl⟩

end good_tag_dispatch

namespace tuple_template

/-- C1: for every arity `N ≥ 1` and index `0 ≤ i < N`, `get<i>` applied to
the tuple built by `construct(v0, ..., vN-1)` returns exactly the value
`vi` supplied at position `i` (as a (type, value) pair: the identity
round-trip of construction and indexed access). -/
theorem get_construct : ∀ (vs : List Val) (v : Val) (i : Nat)
    (h : i < ((v :: vs).map Sigma.fst).length),
    (⟨_, get i (construct v vs) h⟩ : Val) = (v :: vs).get ⟨i, by simpa using h⟩
  | [], _, 0, _ => rfl
  | [], _, _ + 1, h => absurd h (by simp)
  | _ :: _, _, 0, _ => rfl
  | w :: ws, _, i + 1, h => get_construct ws w i (by simpa using h)

/-- Witness for C1 at `construct(42, 7)` and index 1. -/
theorem get_construct_witness :
    (⟨_, get 1 (construct ⟨Nat, 42⟩ [⟨Int, 7⟩]) (by decide)⟩ : Val)
      = ([⟨Nat, 42⟩, ⟨Int, 7⟩] : List Val).get ⟨1, by decide⟩ :=
  get_construct [⟨Int, 7⟩] ⟨Nat, 42⟩ 1 (by decide)

/-- C10: writing `x` through the reference returned by `get<i>` and then
reading `get<i>` yields exactly `x` (each slot reads back the last value
written to it). -/
theorem get_set (Ts : List Type) : ∀ (i : Nat) (t : tuple Ts)
    (hi : i < Ts.length) (x : Ts.get ⟨i, hi⟩),
    get i (set i t hi x) hi = x := by
  intro i t
  induction t generalizing i with
  | single v =>
      intro hi x
      match i, hi with
      | 0, _ => rfl
      | n + 1, hi => exact absurd hi (by simp)
  | cons v rest ih =>
      intro hi x
      match i, hi with
      | 0, _ => rfl
      | n + 1, hi => exact ih n (Nat.lt_of_succ_lt_succ hi) x

/-- Witness for C10 on the tuple `(5, 7)` at slot 0 with new value 9. -/
theorem get_set_witness :
    get 0 (set 0 (tuple.cons (5 : Nat) (tuple.single (7 : Nat)))
        (Nat.zero_lt_succ 1) (9 : Nat)) (Nat.zero_lt_succ 1) = (9 : Nat) :=
  get_set [Nat, Nat] 0 (tuple.cons 5 (tuple.single 7)) (Nat.zero_lt_succ 1) (9 : Nat)

/-- C6: assigning through the reference returned by `get<i>` changes only
slot `i`: every other slot `j ≠ i` still reads the value it held before
the mutation. -/
theorem set_frame (Ts : List Type) : ∀ (i j : Nat) (t : tuple Ts)
    (hi : i < Ts.length) (hj : j < Ts.length) (x : Ts.get ⟨i, hi⟩),
    j ≠ i → get j (set i t hi x) hj = get j t hj := by
  intro i j t
  induction t generalizing i j with
  | single v =>
      intro hi hj x hne
      match i, j, hi, hj with
      | 0, 0, _, _ => exact absurd rfl hne
      | _ + 1, _, hi, _ => exact absurd hi (by simp)
      | _, _ + 1, _, hj => exact absurd hj (by simp)
  | cons v rest ih =>
      intro hi hj x hne
      match i, j, hi, hj with
      | 0, 0, _, _ => exact absurd rfl hne
      | 0, _ + 1, _, _ => rfl
      | _ + 1, 0, _, _ => rfl
      | m + 1, n + 1, hi, hj =>
          exact ih m n (Nat.lt_of_succ_lt_succ hi) (Nat.lt_of_succ_lt_succ hj)
            x (fun hh => hne (by omega))

/-- Witness for C6 on the tuple `(5, 7)`: writing 9 to slot 0 leaves the
value read at slot 1 unchanged. -/
theorem set_frame_witness :
    get 1 (set 0 (tuple.cons (5 : Nat) (tuple.single (7 : Nat)))
        (Nat.zero_lt_succ 1) (9 : Nat)) (Nat.one_lt_two)
      = get 1 (tuple.cons (5 : Nat) (tuple.single (7 : Nat)))
          (Nat.one_lt_two) :=
  set_frame [Nat, Nat] 0 1 (tuple.cons 5 (tuple.single 7))
    (Nat.zero_lt_succ 1) (Nat.one_lt_two) (9 : Nat) (by decide)

end tuple_template
